import Mathlib

/-!
Shallow embedding of the `cevtib` bit-vector (`src/src/lib.rs`) and proofs of
the specification claims about it.

The Rust structure `BitVec<B>` stores bits packed into blocks of type `B`
(`u8 ... u128`) behind a raw pointer, with fields `store : *mut B`,
`num_stores : usize` and `len : usize`.  We model it generically in the block
width `w = B::bits()`; block values are natural numbers `< 2 ^ w`.

Heap model: `mem : Nat → Nat` maps a block index to the block value stored at
`store.add(index)`.  The field `allocBlocks` records how many blocks the most
recent allocator call actually covered: `alloc_zeroed(Layout::new::<B>())` in
`new` covers exactly one `B`, and `realloc(_, _, num_stores * size_of::<B>())`
in `resize` covers `num_stores` blocks.  Reads and writes beyond
`allocBlocks` are out-of-allocation accesses; the model lets them see and
update `mem` (flat-memory view, matching what the test suite of the repository
observes on a glibc heap), and the fresh-allocation garbage outside the zeroed
region is an arbitrary parameter `g`.  Allocation failure (out of memory) is
out of scope: positive-size (re)allocations succeed.  The answer of the allocator
to a zero-size `realloc` is not defined by the code (the `GlobalAlloc`
contract requires a positive size), so it is a boolean parameter
`zeroAllocNull`: whether the zero-size call returns null.
-/

namespace Cevtib

/-- State of a `BitVec<B>` with block width `w`: the heap seen as block values,
the number of blocks covered by the current allocation, and the two counters
`num_stores` and `len` of the Rust struct. -/
structure BitVec where
  mem : Nat → Nat
  allocBlocks : Nat
  num_stores : Nat
  len : Nat

/-- The recoverable error enum of the source. -/
inductive Error where
  | OutOfBounds
deriving DecidableEq

/-- The fatal (process-ending) outcomes of the source: the
`expect("unable to resize bitvec")` on the `try_into` in `resize`, the
`panic!("unable to grow (reallocate) bitvec")` on a null `realloc` result, and
the `assert!` in `push`. -/
inductive Fatal where
  | resizeExpect
  | reallocNull
  | assertFail
deriving DecidableEq

/-- Model of `BitVec::new`: `alloc_zeroed(Layout::new::<B>())` requests memory for
exactly one `B` (zero-initialized), then the struct is built with
`num_stores: 2, len: 0`.  `g` is the heap garbage outside the one allocated
block (blocks hold `w`-bit values, hence the `% 2 ^ w`). -/
def new (w : Nat) (g : Nat → Nat) : BitVec :=
  { mem := fun i => if i < 1 then 0 else g i % 2 ^ w
  , allocBlocks := 1
  , num_stores := 2
  , len := 0 }

/-- Model of `capacity()`: `num_stores * B::bits()`. -/
def capacity (w : Nat) (s : BitVec) : Nat :=
  s.num_stores * w

/-- Model of `is_empty()`: `len == 0`. -/
def is_empty (s : BitVec) : Bool :=
  s.len == 0

/-- Model of `index_mask(index)`: `B::one() << (index % B::bits())`.  For `0 < w` the
shift amount is `< w`, so the result is the `w`-bit value `2 ^ (index % w)`. -/
def index_mask (w index : Nat) : Nat :=
  2 ^ (index % w)

/-- Model of `get_unchecked(index)`: read the block `index / B::bits()` (via
`lookup_store`), mask it, and compare with `B::zero()`. -/
def get_unchecked (w : Nat) (s : BitVec) (index : Nat) : Bool :=
  decide (0 < s.mem (index / w) &&& index_mask w index)

/-- Model of `get(index)`: `Some(get_unchecked(index))` iff `index < len`. -/
def get (w : Nat) (s : BitVec) (index : Nat) : Option Bool :=
  if index < s.len then some (get_unchecked w s index) else none

/-- Model of `set_unchecked(index, element)`: `*store |= mask` when `element`, and
`*store &= !mask` otherwise.  `!mask` is the `w`-bit complement of the single
bit mask, i.e. `(2 ^ w - 1) ^^^ mask`. -/
def set_unchecked (w : Nat) (s : BitVec) (index : Nat) (element : Bool) : BitVec :=
  { s with mem := fun j =>
      if j = index / w then
        (if element then s.mem (index / w) ||| index_mask w index
         else s.mem (index / w) &&& ((2 ^ w - 1) ^^^ index_mask w index))
      else s.mem j }

/-- Model of `set(index, element)`: bounds-checked against `len`. -/
def set (w : Nat) (s : BitVec) (index : Nat) (element : Bool) : Except Error BitVec :=
  if index < s.len then Except.ok (set_unchecked w s index element)
  else Except.error Error.OutOfBounds

/-- Model of `resize(change)`: `num_stores = (num_stores as isize + change).try_into()`
(`usize::try_from` on an `isize` fails exactly on negative values), then clamp
`len` to the new capacity, then `realloc` to `num_stores * size_of::<B>()`
bytes and panic if that returned null.  `realloc` preserves the buffer
contents; a zero-size request returns null iff `zeroAllocNull` (the code does
not define this case), a positive-size request succeeds. -/
def resize (zeroAllocNull : Bool) (w : Nat) (s : BitVec) (change : Int) : Except Fatal BitVec :=
  if (s.num_stores : Int) + change < 0 then Except.error Fatal.resizeExpect
  else if ((s.num_stores : Int) + change).toNat = 0 && zeroAllocNull then
    Except.error Fatal.reallocNull
  else
    Except.ok { mem := s.mem
              , allocBlocks := ((s.num_stores : Int) + change).toNat
              , num_stores := ((s.num_stores : Int) + change).toNat
              , len := if ((s.num_stores : Int) + change).toNat * w < s.len
                       then ((s.num_stores : Int) + change).toNat * w else s.len }

/-- Model of `grow()`: `resize(num_stores as isize)` — double the block allocation. -/
def grow (zeroAllocNull : Bool) (w : Nat) (s : BitVec) : Except Fatal BitVec :=
  resize zeroAllocNull w s (s.num_stores : Int)

/-- Model of `shrink_blocks_by(n)`: `resize(-n)`. -/
def shrink_blocks_by (zeroAllocNull : Bool) (w : Nat) (s : BitVec) (n : Int) : Except Fatal BitVec :=
  resize zeroAllocNull w s (-n)

/-- Model of `push(val)`: grow when `len >= capacity()`, increment `len`, then
`assert!(set(len - 1, val).is_ok())`. -/
def push (zeroAllocNull : Bool) (w : Nat) (s : BitVec) (val : Bool) : Except Fatal BitVec :=
  match (if capacity w s ≤ s.len then grow zeroAllocNull w s else Except.ok s) with
  | Except.error e => Except.error e
  | Except.ok s1 =>
    let s2 : BitVec := { s1 with len := s1.len + 1 }
    match set w s2 (s2.len - 1) val with
    | Except.ok s3 => Except.ok s3
    | Except.error _ => Except.error Fatal.assertFail

/-- Model of `pop()`: on a non-empty vector decrement `len` and return
`Some(get_unchecked(len))`; on an empty one return `None`.  The returned
state is the mutated `self`. -/
def pop (w : Nat) (s : BitVec) : Option Bool × BitVec :=
  if is_empty s then (none, s)
  else
    let s1 : BitVec := { s with len := s.len - 1 }
    (some (get_unchecked w s1 s1.len), s1)

/-- One step of the `Bits` iterator is `next()`: return `get(index)` and
advance `index` when it is `Some`.  `get` answers `Some` exactly while
`index < len`, so from position `index` the iterator takes at most
`len - index` successful steps; that bound is passed as structural fuel while
the loop itself tests `get`, exactly as `next()` does. -/
def bits_go (w : Nat) (s : BitVec) : Nat → Nat → List Bool
  | 0, _ => []
  | Nat.succ n, index =>
    match get w s index with
    | some b => b :: bits_go w s n (index + 1)
    | none => []

/-- Bit sequence produced by running the `Bits` iterator to exhaustion from
position `index`. -/
def bits_list (w : Nat) (s : BitVec) (index : Nat) : List Bool :=
  bits_go w s (s.len - index) index

/-- Model of `fmt::Display`: iterate `iter_bits()` (the `Bits` iterator from index 0)
and write each bit with `"{:b}"` on `bit as u8`, i.e. `'1'` or `'0'`, with no
separators. -/
def display (w : Nat) (s : BitVec) : String :=
  ((bits_list w s 0).map (fun b => if b then '1' else '0')).asString

/-- All-zero heap garbage. -/
def gzero : Nat → Nat := fun _ => 0

/-- All-ones heap garbage for 64-bit blocks. -/
def gones : Nat → Nat := fun _ => 2 ^ 64 - 1

/-- Push a list of booleans left to right, stopping at the first fatal
outcome (there is none in the uses below). -/
def push_list (zeroAllocNull : Bool) (w : Nat) (s : BitVec) (l : List Bool) : Except Fatal BitVec :=
  match l with
  | [] => Except.ok s
  | v :: rest =>
    match push zeroAllocNull w s v with
    | Except.ok s' => push_list zeroAllocNull w s' rest
    | Except.error e => Except.error e

/-- Reading a bit is testing the corresponding bit of its block. -/
theorem get_unchecked_testBit (w : Nat) (s : BitVec) (i : Nat) :
    get_unchecked w s i = (s.mem (i / w)).testBit (i % w) := by
  unfold get_unchecked index_mask
  rw [Nat.and_two_pow]
  cases h : (s.mem (i / w)).testBit (i % w) <;>
    simp [h, Nat.two_pow_pos]

/-- Fact: `set_unchecked` touches only `mem`. -/
theorem set_unchecked_len (w : Nat) (s : BitVec) (i : Nat) (v : Bool) :
    (set_unchecked w s i v).len = s.len := rfl

theorem set_unchecked_num_stores (w : Nat) (s : BitVec) (i : Nat) (v : Bool) :
    (set_unchecked w s i v).num_stores = s.num_stores := rfl

/-- Reading back the bit just written (same index) returns the written value,
for any positive block width. -/
theorem get_set_unchecked_same (w : Nat) (hw : 0 < w) (s : BitVec) (i : Nat) (v : Bool) :
    get_unchecked w (set_unchecked w s i v) i = v := by
  rw [get_unchecked_testBit]
  unfold set_unchecked index_mask
  have hk : i % w < w := Nat.mod_lt i hw
  cases v <;>
    simp [Nat.testBit_land, Nat.testBit_lor, Nat.testBit_xor,
      Nat.testBit_two_pow_sub_one, Nat.testBit_two_pow_self, hk]

/-- Fact: `get_unchecked` does not look at `len`. -/
theorem get_unchecked_set_len (w : Nat) (s : BitVec) (l i : Nat) :
    get_unchecked w { s with len := l } i = get_unchecked w s i := rfl

/-- Successful `resize` in one equation: when the new block count is positive,
the reallocation succeeds and yields exactly that many blocks, with `len`
clamped to the new capacity. -/
theorem resize_pos (zan : Bool) (w : Nat) (s : BitVec) (change : Int)
    (h : 0 < (s.num_stores : Int) + change) :
    resize zan w s change =
      Except.ok { mem := s.mem
                , allocBlocks := ((s.num_stores : Int) + change).toNat
                , num_stores := ((s.num_stores : Int) + change).toNat
                , len := if ((s.num_stores : Int) + change).toNat * w < s.len
                         then ((s.num_stores : Int) + change).toNat * w else s.len } := by
  unfold resize
  rw [if_neg (by omega)]
  rw [if_neg (by simp; omega)]

/-- Fact: `grow` on a state satisfying the invariant doubles `num_stores` and
leaves `len` and `mem` unchanged. -/
theorem grow_spec (zan : Bool) (w : Nat) (s : BitVec)
    (hns : 0 < s.num_stores) (hlen : s.len ≤ capacity w s) :
    grow zan w s =
      Except.ok { mem := s.mem
                , allocBlocks := 2 * s.num_stores
                , num_stores := 2 * s.num_stores
                , len := s.len } := by
  unfold grow
  rw [resize_pos zan w s (s.num_stores : Int) (by omega)]
  have h2 : ((s.num_stores : Int) + (s.num_stores : Int)).toNat = 2 * s.num_stores := by omega
  have hle : s.len ≤ 2 * s.num_stores * w := by
    have := hlen
    unfold capacity at this
    nlinarith
  rw [h2, if_neg (by omega)]

/-- Fact: `push` when there is still room: no growth, the result is `set_unchecked`
at the old length on the state with `len` bumped by one. -/
theorem push_eq_of_lt (zan : Bool) (w : Nat) (s : BitVec) (v : Bool)
    (hcap : s.len < capacity w s) :
    push zan w s v = Except.ok (set_unchecked w { s with len := s.len + 1 } s.len v) := by
  unfold push
  rw [if_neg (by omega)]
  simp [set, Nat.lt_succ_self]

/-- Fact: `push` at full capacity: grow (doubling `num_stores`), then write. -/
theorem push_eq_of_full (zan : Bool) (w : Nat) (s : BitVec) (v : Bool)
    (hns : 0 < s.num_stores) (heq : s.len = capacity w s) :
    push zan w s v =
      Except.ok (set_unchecked w
        { mem := s.mem
        , allocBlocks := 2 * s.num_stores
        , num_stores := 2 * s.num_stores
        , len := s.len + 1 } s.len v) := by
  unfold push
  rw [if_pos (by omega), grow_spec zan w s hns (by omega)]
  simp [set, Nat.lt_succ_self]

/-- Full characterization of a `push` from an invariant-satisfying state:
it succeeds and its result is `set_unchecked` at the old length on a state
`s1` (either `s` itself or the grown copy) whose length was bumped by one. -/
theorem push_spec (zan : Bool) (w : Nat) (s : BitVec) (v : Bool)
    (hw : 0 < w) (hns : 0 < s.num_stores) (hlen : s.len ≤ capacity w s) :
    ∃ s1 : BitVec,
      s1.len = s.len ∧ s1.mem = s.mem ∧
      s.len < capacity w s1 ∧
      (s.len = capacity w s → capacity w s1 = 2 * capacity w s) ∧
      (s.len < capacity w s → s1 = s) ∧
      push zan w s v = Except.ok (set_unchecked w { s1 with len := s1.len + 1 } s1.len v) := by
  by_cases hcap : s.len < capacity w s
  · exact ⟨s, rfl, rfl, hcap, fun h => absurd h (by omega), fun _ => rfl,
      push_eq_of_lt zan w s v hcap⟩
  · have heq : s.len = capacity w s := by omega
    refine ⟨{ mem := s.mem, allocBlocks := 2 * s.num_stores
            , num_stores := 2 * s.num_stores, len := s.len }, rfl, rfl, ?_, ?_, ?_, ?_⟩
    · show s.len < 2 * s.num_stores * w
      unfold capacity at heq
      nlinarith [hlen, heq]
    · intro _
      show 2 * s.num_stores * w = 2 * (s.num_stores * w)
      ring
    · intro h; omega
    · exact push_eq_of_full zan w s v hns heq

/-- With enough fuel, the iterator run from `i` yields `get_unchecked` at the
indices `i, i + 1, ..., len - 1` in order. -/
theorem bits_go_spec (w : Nat) (s : BitVec) :
    ∀ n i, s.len - i ≤ n →
      bits_go w s n i = (List.range' i (s.len - i)).map (fun j => get_unchecked w s j) := by
  intro n
  induction n with
  | zero =>
    intro i h
    have h0 : s.len - i = 0 := by omega
    rw [h0]
    rfl
  | succ n ih =>
    intro i h
    by_cases hi : i < s.len
    · have h1 : s.len - i = (s.len - (i + 1)) + 1 := by omega
      rw [h1, List.range'_succ, List.map_cons]
      show (match get w s i with
            | some b => b :: bits_go w s n (i + 1)
            | none => []) = _
      rw [show get w s i = some (get_unchecked w s i) from if_pos hi]
      rw [ih (i + 1) (by omega)]
    · have h0 : s.len - i = 0 := by omega
      rw [h0]
      show (match get w s i with
            | some b => b :: bits_go w s n (i + 1)
            | none => []) = _
      rw [show get w s i = none from if_neg hi]
      rfl

/-- The `Bits` iterator from index 0 yields exactly the logical bits
`0 .. len - 1` in index order. -/
theorem bits_list_spec (w : Nat) (s : BitVec) :
    bits_list w s 0 = (List.range s.len).map (fun j => get_unchecked w s j) := by
  unfold bits_list
  rw [bits_go_spec w s (s.len - 0) 0 (by omega)]
  simp [List.range_eq_range']

/-- The `expect` on the `try_into` in `resize` fires exactly when the new
block count `num_stores + change` is negative: `usize::try_from` of an
`isize` fails only on negative values, and zero is accepted. -/
theorem resize_expect_iff (zan : Bool) (w : Nat) (s : BitVec) (change : Int) :
    resize zan w s change = Except.error Fatal.resizeExpect ↔
      (s.num_stores : Int) + change < 0 := by
  unfold resize
  split
  · rename_i h
    simp [h]
  · rename_i h
    split
    · rename_i hz
      constructor
      · intro hh
        simp at hh
      · intro hh
        exact absurd hh h
    · constructor
      · intro hh
        simp at hh
      · intro hh
        exact absurd hh h

/-- The null-pointer panic after `realloc` fires exactly when the new block
count is zero and the allocator answers the zero-size request with null. -/
theorem resize_null_iff (zan : Bool) (w : Nat) (s : BitVec) (change : Int) :
    resize zan w s change = Except.error Fatal.reallocNull ↔
      ((s.num_stores : Int) + change = 0 ∧ zan = true) := by
  unfold resize
  split
  · rename_i h
    constructor
    · intro hh
      simp at hh
    · rintro ⟨h0, _⟩
      exfalso
      omega
  · rename_i h
    split
    · rename_i hz
      simp only [Bool.and_eq_true, decide_eq_true_eq] at hz
      constructor
      · intro _
        exact ⟨by omega, hz.2⟩
      · intro _
        rfl
    · rename_i hz
      simp only [Bool.and_eq_true, decide_eq_true_eq, not_and] at hz
      constructor
      · intro hh
        simp at hh
      · rintro ⟨h0, hzan⟩
        exact absurd hzan (hz (by omega))

/-- After every successful `resize`, the reallocation request was
`num_stores * size_of::<B>()` bytes, so the allocation covers exactly
`num_stores` blocks. -/
theorem resize_alloc_eq_num_stores (zan : Bool) (w : Nat) (s : BitVec) (c : Int)
    (s' : BitVec) (h : resize zan w s c = Except.ok s') :
    s'.allocBlocks = s'.num_stores := by
  unfold resize at h
  split at h
  · cases h
  · split at h
    · cases h
    · cases h
      rfl

/-- Concrete invariant-satisfying state with one logical bit, used by the
witnesses below. -/
def st1 : BitVec :=
  { mem := gzero, allocBlocks := 2, num_stores := 2, len := 1 }

/-- The alternating pattern `i % 2 == 0` for ten pushes. -/
def pattern10 : List Bool :=
  (List.range 10).map (fun i => i % 2 == 0)

/-- State reached by pushing `pattern10` onto a fresh 64-bit-block vector. -/
def s10 : BitVec :=
  match push_list false 64 (new 64 gzero) pattern10 with
  | Except.ok s => s
  | Except.error _ => new 64 gzero

/-- C1: the claim says every freshly constructed BitVector reads `false` under
`get_unchecked` at every index `i < capacity()`.  The code violates this:
`new` requests `alloc_zeroed(Layout::new::<B>())` — memory for exactly ONE
block — while recording `num_stores = 2`, so for `B = u64` the indices
`64 ≤ i < capacity() = 128` are served from the second, never-allocated
block, i.e. from heap garbage.  With all-ones garbage, bit 64 (which is
inside the claimed capacity) reads `true`; bit 63, inside the one actually
allocated and zeroed block, reads `false` regardless of the garbage. -/
theorem C1_fresh_bit_in_unallocated_block :
    capacity 64 (new 64 gones) = 128 ∧
    get_unchecked 64 (new 64 gones) 64 = true ∧
    get_unchecked 64 (new 64 gones) 63 = false ∧
    get_unchecked 64 (new 64 gzero) 64 = false := by
  refine ⟨rfl, by decide, by decide, by decide⟩

/-- C2: the claim says the owned buffer always holds exactly `num_stores`
blocks.  It fails at construction: `new` allocates one block
(`Layout::new::<B>()`) yet sets `num_stores = 2`, so `capacity() = 128` for
`u64` blocks while only 64 bits are backed by the allocation.  (After every
successful `resize` the property does hold: see
`resize_alloc_eq_num_stores`.) -/
theorem C2_initial_allocation_mismatch :
    (new 64 gzero).allocBlocks = 1 ∧
    (new 64 gzero).num_stores = 2 ∧
    capacity 64 (new 64 gzero) = 128 :=
  ⟨rfl, rfl, rfl⟩

/-- C3 counterexample: the claim says `resize` aborts if and only if the new
block count is not positive, in particular that a resize leaving exactly zero
blocks aborts.  But `usize::try_from` accepts zero, so
`shrink_blocks_by(2)` on a fresh vector passes the `expect`; the code then
issues a zero-size `realloc`, a case the `GlobalAlloc` contract leaves
undefined, and with an allocator that answers it non-null (e.g. glibc
`posix_memalign` with size 0) execution continues normally with
`num_stores = 0` — no abort. -/
theorem C3_resize_to_zero_no_abort :
    ∃ s', resize false 64 (new 64 gzero) (-2) = Except.ok s' ∧
      s'.num_stores = 0 ∧ s'.len = 0 :=
  ⟨_, rfl, rfl, rfl⟩

/-- C3 amended: `resize` (and hence `shrink_blocks_by`) aborts at its size
conversion iff `num_stores + relative_block_change` is negative; a result of
exactly zero passes the conversion, and the subsequent null-check panic fires
iff the allocator answers the zero-size reallocation with null. -/
theorem C3_resize_abort_characterization (zan : Bool) (w : Nat) (s : BitVec) (change : Int) :
    (resize zan w s change = Except.error Fatal.resizeExpect ↔
      (s.num_stores : Int) + change < 0) ∧
    (resize zan w s change = Except.error Fatal.reallocNull ↔
      ((s.num_stores : Int) + change = 0 ∧ zan = true)) ∧
    shrink_blocks_by zan w s change = resize zan w s (-change) :=
  ⟨resize_expect_iff zan w s change, resize_null_iff zan w s change, rfl⟩

/-- C4: `set(i, v)` returns `OutOfBounds` iff `i ≥ len`; for `i < len` it
writes bit `i` and returns `Ok`; and a successful `set` never changes the
length. -/
theorem C4_set_bounds_and_frame (w : Nat) (s : BitVec) (i : Nat) (v : Bool)
    (hw : 0 < w) :
    (set w s i v = Except.error Error.OutOfBounds ↔ s.len ≤ i) ∧
    (i < s.len →
      set w s i v = Except.ok (set_unchecked w s i v) ∧
      get_unchecked w (set_unchecked w s i v) i = v) ∧
    (∀ s', set w s i v = Except.ok s' → s'.len = s.len) := by
  refine ⟨?_, ?_, ?_⟩
  · unfold set
    split
    · rename_i h
      constructor
      · intro hh
        simp at hh
      · intro hh
        omega
    · rename_i h
      simp
      omega
  · intro hlt
    refine ⟨?_, get_set_unchecked_same w hw s i v⟩
    unfold set
    rw [if_pos hlt]
  · intro s' h
    unfold set at h
    split at h
    · cases h
      rfl
    · cases h

/-- C4 witness at `w = 64`, `s = st1`, `i = 0`, `v = true`. -/
theorem C4_set_bounds_and_frame_witness :
    (set 64 st1 0 true = Except.error Error.OutOfBounds ↔ st1.len ≤ 0) ∧
    (0 < st1.len →
      set 64 st1 0 true = Except.ok (set_unchecked 64 st1 0 true) ∧
      get_unchecked 64 (set_unchecked 64 st1 0 true) 0 = true) ∧
    (∀ s', set 64 st1 0 true = Except.ok s' → s'.len = st1.len) :=
  C4_set_bounds_and_frame 64 st1 0 true (by decide)

/-- C5: from any invariant-satisfying state, `push` succeeds and leaves
`len = old len + 1`; when `len = capacity()` the growth step doubles the
capacity while leaving `len` unchanged, and the internal `set` cannot fail
(the `assert!` never fires, witnessed by `push` returning `Ok`). -/
theorem C5_push_succeeds_and_grows (zan : Bool) (w : Nat) (s : BitVec) (v : Bool)
    (hw : 0 < w) (hns : 0 < s.num_stores) (hlen : s.len ≤ capacity w s) :
    (∃ s', push zan w s v = Except.ok s' ∧ s'.len = s.len + 1) ∧
    (s.len = capacity w s →
      ∃ sg, grow zan w s = Except.ok sg ∧ sg.len = s.len ∧
        capacity w sg = 2 * capacity w s) := by
  constructor
  · obtain ⟨s1, h1len, _, _, _, _, hpush⟩ := push_spec zan w s v hw hns hlen
    refine ⟨_, hpush, ?_⟩
    rw [set_unchecked_len]
    show s1.len + 1 = s.len + 1
    omega
  · intro _
    refine ⟨_, grow_spec zan w s hns hlen, rfl, ?_⟩
    show 2 * s.num_stores * w = 2 * (s.num_stores * w)
    ring

/-- C5 witness at `w = 64`, `s = st1`, `v = false`. -/
theorem C5_push_succeeds_and_grows_witness :
    (∃ s', push false 64 st1 false = Except.ok s' ∧ s'.len = st1.len + 1) ∧
    (st1.len = capacity 64 st1 →
      ∃ sg, grow false 64 st1 = Except.ok sg ∧ sg.len = st1.len ∧
        capacity 64 sg = 2 * capacity 64 st1) :=
  C5_push_succeeds_and_grows false 64 st1 false (by decide) (by decide) (by decide)

/-- C6: `pop` undoes the most recent `push`: after `push(v)` from any
invariant-satisfying state, `pop()` returns `Some(v)` and restores the prior
length; and `pop()` on an empty vector returns `None` and leaves the state
unchanged. -/
theorem C6_pop_undoes_push (zan : Bool) (w : Nat) (s : BitVec) (v : Bool)
    (hw : 0 < w) (hns : 0 < s.num_stores) (hlen : s.len ≤ capacity w s) :
    (∀ s', push zan w s v = Except.ok s' →
      (pop w s').1 = some v ∧ (pop w s').2.len = s.len) ∧
    (s.len = 0 → pop w s = (none, s)) := by
  constructor
  · intro s' hs'
    obtain ⟨s1, h1len, _, _, _, _, hpush⟩ := push_spec zan w s v hw hns hlen
    rw [hpush] at hs'
    cases hs'
    constructor
    · unfold pop is_empty
      rw [if_neg (by simp [set_unchecked_len])]
      simp only [set_unchecked_len, Nat.add_sub_cancel]
      rw [get_unchecked_set_len, get_set_unchecked_same w hw]
    · unfold pop is_empty
      rw [if_neg (by simp [set_unchecked_len])]
      simp only [set_unchecked_len, Nat.add_sub_cancel]
      omega
  · intro h0
    unfold pop is_empty
    rw [if_pos (by simp [h0])]

/-- C6 witness at `w = 64`, `s = st1` (and the empty case via a zero-length
state). -/
theorem C6_pop_undoes_push_witness :
    (∀ s', push false 64 st1 true = Except.ok s' →
      (pop 64 s').1 = some true ∧ (pop 64 s').2.len = st1.len) ∧
    (st1.len = 0 → pop 64 st1 = (none, st1)) :=
  C6_pop_undoes_push false 64 st1 true (by decide) (by decide) (by decide)

/-- C7: `set(i, v)` followed by `get(i)` returns `Some(v)` whenever
`i < len`, and `get(j)` returns `None` for every `j ≥ len`. -/
theorem C7_set_then_get (w : Nat) (s : BitVec) (i : Nat) (v : Bool)
    (hw : 0 < w) :
    (i < s.len → ∃ s', set w s i v = Except.ok s' ∧ get w s' i = some v) ∧
    (∀ j, s.len ≤ j → get w s j = none) := by
  constructor
  · intro hlt
    refine ⟨set_unchecked w s i v, ?_, ?_⟩
    · unfold set
      rw [if_pos hlt]
    · unfold get
      rw [if_pos (by rw [set_unchecked_len]; exact hlt)]
      rw [get_set_unchecked_same w hw]
  · intro j hj
    unfold get
    rw [if_neg (by omega)]

/-- C7 witness at `w = 64`, `s = st1`, `i = 0`, `v = true`. -/
theorem C7_set_then_get_witness :
    (0 < st1.len → ∃ s', set 64 st1 0 true = Except.ok s' ∧ get 64 s' 0 = some true) ∧
    (∀ j, st1.len ≤ j → get 64 st1 j = none) :=
  C7_set_then_get 64 st1 0 true (by decide)

/-- C8: `length ≤ capacity()` holds after construction and is preserved by
`resize` (a shrink below `len` clamps `len` to exactly the new capacity),
`set`, `push` and `pop`. -/
theorem C8_len_le_capacity (zan : Bool) (w : Nat) (g : Nat → Nat) (s : BitVec)
    (c : Int) (i : Nat) (v : Bool)
    (hw : 0 < w) (hns : 0 < s.num_stores) (hinv : s.len ≤ capacity w s) :
    (new w g).len ≤ capacity w (new w g) ∧
    (∀ s', resize zan w s c = Except.ok s' →
      s'.len ≤ capacity w s' ∧ (capacity w s' < s.len → s'.len = capacity w s')) ∧
    (∀ s', set w s i v = Except.ok s' → s'.len ≤ capacity w s') ∧
    (∀ s', push zan w s v = Except.ok s' → s'.len ≤ capacity w s') ∧
    (pop w s).2.len ≤ capacity w (pop w s).2 := by
  refine ⟨by simp [new, capacity], ?_, ?_, ?_, ?_⟩
  · intro s' h
    unfold resize at h
    split at h
    · cases h
    · split at h
      · cases h
      · cases h
        unfold capacity
        dsimp only
        constructor
        · split <;> omega
        · intro hlt
          rw [if_pos hlt]
  · intro s' h
    unfold set at h
    split at h
    · cases h
      unfold capacity at hinv ⊢
      rw [set_unchecked_len, set_unchecked_num_stores]
      exact hinv
    · cases h
  · intro s' h
    obtain ⟨s1, h1len, _, hcap1, _, _, hpush⟩ := push_spec zan w s v hw hns hinv
    rw [hpush] at h
    cases h
    rw [set_unchecked_len]
    show s1.len + 1 ≤ capacity w _
    unfold capacity at hcap1 ⊢
    rw [set_unchecked_num_stores]
    show s1.len + 1 ≤ s1.num_stores * w
    omega
  · unfold pop is_empty
    split
    · exact hinv
    · unfold capacity at hinv ⊢
      simp only []
      omega

/-- C8 witness at concrete inputs. -/
theorem C8_len_le_capacity_witness :
    (new 64 gzero).len ≤ capacity 64 (new 64 gzero) ∧
    (∀ s', resize false 64 st1 (-1) = Except.ok s' →
      s'.len ≤ capacity 64 s' ∧ (capacity 64 s' < st1.len → s'.len = capacity 64 s')) ∧
    (∀ s', set 64 st1 0 true = Except.ok s' → s'.len ≤ capacity 64 s') ∧
    (∀ s', push false 64 st1 true = Except.ok s' → s'.len ≤ capacity 64 s') ∧
    (pop 64 st1).2.len ≤ capacity 64 (pop 64 st1).2 :=
  C8_len_le_capacity false 64 gzero st1 (-1) 0 true (by decide) (by decide) (by decide)

/-- C9: the textual rendering is exactly the logical bits `0 .. len - 1` in
index order, each as `'1'` or `'0'` with no separators; and the concrete
scenario: pushing ten booleans with pattern `i % 2 == 0` onto a fresh vector
gives `get(2) = Some(true)`, `get(3) = Some(false)` and renders
`"1010101010"`. -/
theorem C9_display_is_bit_sequence :
    (∀ w s, bits_list w s 0 = (List.range s.len).map (fun j => get_unchecked w s j)) ∧
    push_list false 64 (new 64 gzero) pattern10 = Except.ok s10 ∧
    get 64 s10 2 = some true ∧
    get 64 s10 3 = some false ∧
    display 64 s10 = "1010101010" :=
  ⟨bits_list_spec, rfl, by decide, by decide, by decide⟩

/-- C10: `pop` never changes the block count, the allocation, or hence the
capacity — there is no shrink-on-pop. -/
theorem C10_pop_preserves_capacity (w : Nat) (s : BitVec) :
    (pop w s).2.num_stores = s.num_stores ∧
    (pop w s).2.allocBlocks = s.allocBlocks ∧
    capacity w (pop w s).2 = capacity w s := by
  unfold pop
  split <;> simp [capacity]

end Cevtib
